import Mathlib

/-!
# Whiteboard: element store, drawing handlers and presence tracker

A shallow embedding of `src/components/Whiteboard.js`.

Modelling conventions.

* The React component state (`tool`, `elements`, `isDrawing`, `currentPath`,
  `activeUsers`) is a record `State`; every handler is a function from the state
  before the event to the state after it.  Handlers run one at a time on the
  event thread, each one seeing the state left by the previous one.
* The two outgoing effects, `saveElement(element)` and `deleteElement(id)`, are
  recorded as the logs `saved` and `deleted` of the state, in call order.
* Values returned by the environment are arguments of the handler: the pointer
  position, the result of `uuidv4()`, the result of `prompt(...)`.
* Pointer coordinates are integers.  A stored number can also be `NaN`, which
  is what `point.x - lastElement.data.x` gives when the field is missing.
* An element's `data` is a flat record whose keys may be absent.
-/

namespace Whiteboard

/-- Identifiers are the strings produced by `uuidv4()`. -/
abbrev Id := String

/-- The five tools of `TOOLS`. -/
inductive Tool
  | PEN
  | RECTANGLE
  | CIRCLE
  | TEXT
  | ERASER
  deriving DecidableEq, Repr

/-- The string each tool stands for in `TOOLS`. -/
def TOOLS : Tool → String
  | .PEN => "pen"
  | .RECTANGLE => "rectangle"
  | .CIRCLE => "circle"
  | .TEXT => "text"
  | .ERASER => "eraser"

/-- A stored number: an integer or `NaN`. -/
inductive JsNum
  | num (v : Int)
  | nan
  deriving DecidableEq, Repr

/-- The value of `a - b` where `a` is a pointer coordinate and `b` a possibly
missing data field: a missing or `NaN` operand gives `NaN`. -/
def jsSub (a : Int) : Option JsNum → JsNum
  | some (.num b) => .num (a - b)
  | _ => .nan

/-- The test `v !== 0` on a possibly missing data field. -/
def strictNeZero : Option JsNum → Bool
  | some (.num v) => v != 0
  | _ => true

/-- The `data` object of an element; every key may be absent. -/
structure Data where
  x : Option JsNum := none
  y : Option JsNum := none
  width : Option JsNum := none
  height : Option JsNum := none
  points : Option (List Int) := none
  text : Option String := none
  fontSize : Option Int := none
  stroke : Option String := none
  strokeWidth : Option Int := none
  fill : Option String := none
  deriving DecidableEq, Repr

/-- An element of the board: the local objects carry `id`, `type`, `data`; the
rows delivered by the database also carry the three provenance columns. -/
structure Element where
  id : Id
  type : String
  data : Data
  whiteboard_id : Option String := none
  created_by : Option String := none
  created_at : Option String := none
  deriving DecidableEq, Repr

/-- A pointer position, as returned by `getPointerPosition()`. -/
structure Pos where
  x : Int
  y : Int
  deriving DecidableEq, Repr

/-- A presence descriptor, as passed to `channel.track`. -/
structure Presence where
  user_id : String
  email : String
  online_at : String
  deriving DecidableEq, Repr

/-- The component state together with the two effect logs. -/
structure State where
  tool : Tool := .PEN
  elements : List Element := []
  isDrawing : Bool := false
  currentPath : List Int := []
  activeUsers : List Presence := []
  saved : List Element := []
  deleted : List Id := []
  deriving DecidableEq, Repr

/-! ## Element store handlers (`setupRealtimeSubscription`) -/

/-- The `INSERT` handler: `setElements(prev => [...prev, payload.new])`. -/
def applyInsert (prev : List Element) (new : Element) : List Element :=
  prev ++ [new]

/-- The `DELETE` handler:
`setElements(prev => prev.filter(el => el.id !== payload.old.id))`. -/
def applyDelete (prev : List Element) (oldId : Id) : List Element :=
  prev.filter (fun el => el.id != oldId)

/-! ## Presence handlers (`setupRealtimeSubscription`) -/

/-- The presence `sync` handler: `Object.values(state).flat()` replaces the
list.  The presence state is given as its list of key/array entries. -/
def presenceSync (_prev : List Presence) (state : List (String × List Presence)) :
    List Presence :=
  (state.map (fun kv => kv.2)).flatten

/-- The presence `join` handler: `[...prev, ...newPresences]`. -/
def presenceJoin (prev : List Presence) (newPresences : List Presence) : List Presence :=
  prev ++ newPresences

/-- The presence `leave` handler:
`prev.filter(user => !leftPresences.find(left => left.user_id === user.user_id))`. -/
def presenceLeave (prev : List Presence) (leftPresences : List Presence) : List Presence :=
  prev.filter (fun user =>
    !(leftPresences.find? (fun left => left.user_id == user.user_id)).isSome)

/-! ## Drawing handlers -/

/-- The updater of `handleMouseMove` for the rectangle and circle tools: the
last element of the list, whichever it is, gets its `width` and `height` set
from the pointer position; the other elements are kept. -/
def resizeLast (prev : List Element) (point : Pos) : List Element :=
  match prev.getLast? with
  | some lastElement =>
    prev.dropLast ++
      [{ lastElement with
          data := { lastElement.data with
            width := some (jsSub point.x lastElement.data.x)
            height := some (jsSub point.y lastElement.data.y) } }]
  | none => prev

/-- Handler `handleMouseDown`. `uuid` is the value `uuidv4()` returns if it is
called, `promptText` the value `prompt('Enter text:')` returns if it is called
(`none` for `null`). -/
def handleMouseDown (s : State) (pos : Pos) (uuid : Id) (promptText : Option String) :
    State :=
  if s.tool = .ERASER then s
  else
    let s1 := { s with isDrawing := true }
    match s.tool with
    | .PEN => { s1 with currentPath := [pos.x, pos.y] }
    | .RECTANGLE | .CIRCLE =>
      let newElement : Element :=
        { id := uuid
          type := TOOLS s.tool
          data :=
            { x := some (.num pos.x)
              y := some (.num pos.y)
              width := some (.num 0)
              height := some (.num 0)
              stroke := some "#000000"
              strokeWidth := some 2 } }
      { s1 with elements := s1.elements ++ [newElement] }
    | .TEXT =>
      match promptText with
      | some text =>
        if text ≠ "" then
          let newElement : Element :=
            { id := uuid
              type := "text"
              data :=
                { x := some (.num pos.x)
                  y := some (.num pos.y)
                  text := some text
                  fontSize := some 16
                  fill := some "#000000" } }
          { s1 with
            elements := s1.elements ++ [newElement]
            saved := s1.saved ++ [newElement] }
        else s1
      | none => s1
    | .ERASER => s1

/-- Handler `handleMouseMove`. -/
def handleMouseMove (s : State) (point : Pos) : State :=
  if !s.isDrawing then s
  else
    match s.tool with
    | .PEN => { s with currentPath := s.currentPath ++ [point.x, point.y] }
    | .RECTANGLE | .CIRCLE => { s with elements := resizeLast s.elements point }
    | _ => s

/-- Handler `handleMouseUp`. `uuid` is the value `uuidv4()` returns if it is
called. -/
def handleMouseUp (s : State) (uuid : Id) : State :=
  if !s.isDrawing then s
  else
    let s1 := { s with isDrawing := false }
    if s.tool = .PEN ∧ s.currentPath.length > 0 then
      let newElement : Element :=
        { id := uuid
          type := "line"
          data :=
            { points := some s.currentPath
              stroke := some "#000000"
              strokeWidth := some 2 } }
      { s1 with
        elements := s1.elements ++ [newElement]
        saved := s1.saved ++ [newElement]
        currentPath := [] }
    else if s.tool = .RECTANGLE ∨ s.tool = .CIRCLE then
      match s.elements.getLast? with
      | some lastElement =>
        if strictNeZero lastElement.data.width || strictNeZero lastElement.data.height then
          { s1 with saved := s1.saved ++ [lastElement] }
        else s1
      | none => s1
    else s1

/-- Handler `handleElementClick`: with the eraser, `deleteElement(elementId)`. -/
def handleElementClick (s : State) (elementId : Id) : State :=
  if s.tool = .ERASER then { s with deleted := s.deleted ++ [elementId] } else s

/-! ## Events and runs -/

/-- Everything that can happen to the component between two renders. -/
inductive Event
  | setTool (t : Tool)
  | mouseDown (pos : Pos) (uuid : Id) (promptText : Option String)
  | mouseMove (point : Pos)
  | mouseUp (uuid : Id)
  | elementClick (elementId : Id)
  | inserted (new : Element)
  | deleted (oldId : Id)
  | presenceSync (state : List (String × List Presence))
  | presenceJoin (newPresences : List Presence)
  | presenceLeave (leftPresences : List Presence)
  deriving DecidableEq, Repr

/-- One event applied to the state. -/
def step (s : State) : Event → State
  | .setTool t => { s with tool := t }
  | .mouseDown pos uuid promptText => handleMouseDown s pos uuid promptText
  | .mouseMove point => handleMouseMove s point
  | .mouseUp uuid => handleMouseUp s uuid
  | .elementClick elementId => handleElementClick s elementId
  | .inserted new => { s with elements := applyInsert s.elements new }
  | .deleted oldId => { s with elements := applyDelete s.elements oldId }
  | .presenceSync state => { s with activeUsers := presenceSync s.activeUsers state }
  | .presenceJoin newPresences =>
    { s with activeUsers := presenceJoin s.activeUsers newPresences }
  | .presenceLeave leftPresences =>
    { s with activeUsers := presenceLeave s.activeUsers leftPresences }

/-- A sequence of events applied in order. -/
def run (s : State) (evs : List Event) : State :=
  evs.foldl step s

/-- The flat coordinate list `x0, y0, x1, y1, ...` of a point sequence. -/
def flatPoints : List Pos → List Int
  | [] => []
  | p :: ps => p.x :: p.y :: flatPoints ps

/-- The pointer events of one session: down at `p0`, a move at each of `ps`,
then up. `uuidDown` and `uuidUp` are what `uuidv4()` returns in the down and
the up handler. -/
def session (p0 : Pos) (ps : List Pos) (uuidDown uuidUp : Id) : List Event :=
  Event.mouseDown p0 uuidDown none :: (ps.map Event.mouseMove ++ [Event.mouseUp uuidUp])

/-- The stroke element `handleMouseUp` builds from the accumulated path. -/
def strokeElement (uuid : Id) (path : List Int) : Element :=
  { id := uuid
    type := "line"
    data := { points := some path, stroke := some "#000000", strokeWidth := some 2 } }

/-- The rectangle or circle element `handleMouseDown` builds at `origin`, with
the given width and height in place of the initial zeros. -/
def shapeElement (t : Tool) (uuid : Id) (origin : Pos) (w h : Int) : Element :=
  { id := uuid
    type := TOOLS t
    data :=
      { x := some (.num origin.x)
        y := some (.num origin.y)
        width := some (.num w)
        height := some (.num h)
        stroke := some "#000000"
        strokeWidth := some 2 } }

/-- At most one record per `user_id`. -/
def uniqueUsers (m : List Presence) : Prop :=
  (m.map (fun p => p.user_id)).Nodup

instance (m : List Presence) : Decidable (uniqueUsers m) :=
  inferInstanceAs (Decidable (m.map (fun p : Presence => p.user_id)).Nodup)

/-- The event brings no second record for a `user_id`: a snapshot lists each
`user_id` once, a join carries distinct `user_id`s none of which `m` holds. -/
def freshFor (m : List Presence) : Event → Prop
  | .presenceSync state => uniqueUsers ((state.map (fun kv => kv.2)).flatten)
  | .presenceJoin newPresences =>
    uniqueUsers newPresences ∧ ∀ p ∈ newPresences, ∀ q ∈ m, p.user_id ≠ q.user_id
  | _ => True

/-- Every event of the sequence is `freshFor` the membership it meets. -/
def freshRun (s : State) : List Event → Prop
  | [] => True
  | ev :: evs => freshFor s.activeUsers ev ∧ freshRun (step s ev) evs

/-! ## Initial load (`loadElements`) -/

/-- What awaiting the query of `loadElements` gives: the promise is rejected,
or it resolves to an object with the fields `data` and `error`, each possibly
`null`. -/
inductive FetchResult
  | rejected (reason : String)
  | resolved (data : Option (List Element)) (error : Option String)
  deriving DecidableEq, Repr

/-- The `try` block of `loadElements`: `if (error) throw error`, then
`setElements(data || [])`. An exception leaves the block before `setElements`
is reached. -/
def loadElementsTry (s : State) : FetchResult → Except String State
  | .rejected reason => .error reason
  | .resolved _ (some error) => .error error
  | .resolved data none => .ok { s with elements := data.getD [] }

/-- Function `loadElements`: the `try` block, and a `catch` that logs the
exception and goes on with the state as the `try` block found it. -/
def loadElements (s : State) (r : FetchResult) : Except String State :=
  match loadElementsTry s r with
  | .ok s' => .ok s'
  | .error _ => .ok s

/-! ## Sample data -/

/-- A stroke element with id `a`. -/
def sampleA : Element :=
  { id := "a", type := "line", data := { points := some [0, 0, 5, 0] } }

/-- A rectangle element with id `b`. -/
def sampleB : Element :=
  { id := "b"
    type := "rectangle"
    data :=
      { x := some (.num 1), y := some (.num 1)
        width := some (.num 3), height := some (.num 4) } }

/-- Presence record of user `U1`. -/
def sampleU1 : Presence :=
  { user_id := "U1", email := "one@example.org", online_at := "2024-01-01T00:00:00Z" }

/-- Presence record of user `U2`. -/
def sampleU2 : Presence :=
  { user_id := "U2", email := "two@example.org", online_at := "2024-01-01T00:00:01Z" }

/-! ## Element store: insert and delete -/

/-- C1, as stated, fails: the `INSERT` handler appends unconditionally, so a second
delivery of the same element changes the store; in particular the echo of a
pen stroke that was appended optimistically adds a second copy of it. -/
theorem applyInsert_twice_ne_once :
    applyInsert (applyInsert [] sampleA) sampleA ≠ applyInsert [] sampleA ∧
    (let s := run {} (session ⟨0, 0⟩ [⟨5, 0⟩] "d" "a")
     s.elements = [{ sampleA with data := { sampleA.data with
        stroke := some "#000000", strokeWidth := some 2 } }] ∧
     ∀ e ∈ s.elements, (step s (.inserted e)).elements ≠ s.elements) := by
  decide

/-- C1, amended: the `INSERT` handler appends its element whatever the store
holds; applying it twice with `e` gives the store of applying it once followed
by one more copy of `e`, so the list is one longer and holds the same set of
elements. -/
theorem applyInsert_twice (s : List Element) (e : Element) :
    applyInsert s e = s ++ [e] ∧
    applyInsert (applyInsert s e) e = applyInsert s e ++ [e] ∧
    (applyInsert (applyInsert s e) e).length = (applyInsert s e).length + 1 ∧
    ∀ x, x ∈ applyInsert (applyInsert s e) e ↔ x ∈ applyInsert s e := by
  refine ⟨rfl, rfl, ?_, ?_⟩
  · simp [applyInsert]
  · intro x
    simp only [applyInsert, List.mem_append, List.mem_singleton]
    tauto

/-- C2: deleting an id that no element of the store carries returns the store
itself, and deleting the same id a second time changes nothing. -/
theorem applyDelete_absent (s : List Element) (id : Id) :
    ((∀ el ∈ s, el.id ≠ id) → applyDelete s id = s) ∧
    applyDelete (applyDelete s id) id = applyDelete s id := by
  constructor
  · intro h
    unfold applyDelete
    rw [List.filter_eq_self]
    intro el hel
    simpa using h el hel
  · unfold applyDelete
    rw [List.filter_filter]
    congr 1
    funext el
    simp

/-- C2 at the store `[a, b]` and the absent id `c`. -/
theorem applyDelete_absent_witness :
    (∀ el ∈ [sampleA, sampleB], el.id ≠ "c") ∧
    applyDelete [sampleA, sampleB] "c" = [sampleA, sampleB] :=
  ⟨by decide, (applyDelete_absent [sampleA, sampleB] "c").1 (by decide)⟩

/-- C3: for two elements with distinct ids, inserting them in either order
gives stores with the same elements: each is a permutation of the other, so
they have the same members. -/
theorem applyInsert_comm (s : List Element) (a b : Element) (_h : a.id ≠ b.id) :
    (applyInsert (applyInsert s a) b).Perm (applyInsert (applyInsert s b) a) ∧
    ∀ x, x ∈ applyInsert (applyInsert s a) b ↔ x ∈ applyInsert (applyInsert s b) a := by
  have hp : (applyInsert (applyInsert s a) b).Perm (applyInsert (applyInsert s b) a) := by
    simp only [applyInsert, List.append_assoc, List.singleton_append]
    exact List.Perm.append_left s (List.Perm.swap b a [])
  exact ⟨hp, fun x => hp.mem_iff⟩

/-- C3 at the store `[a]` and two further elements. -/
theorem applyInsert_comm_witness :
    sampleA.id ≠ sampleB.id ∧
    (applyInsert (applyInsert [] sampleA) sampleB).Perm
      (applyInsert (applyInsert [] sampleB) sampleA) :=
  ⟨by decide, (applyInsert_comm [] sampleA sampleB (by decide)).1⟩

/-- C4, as stated, fails when the deleted id is the inserted element's id:
insert then delete leaves the store without the element, delete then insert
leaves it with the element. -/
theorem insert_delete_same_id_differ :
    applyDelete (applyInsert [] sampleA) sampleA.id = [] ∧
    applyInsert (applyDelete [] sampleA.id) sampleA = [sampleA] ∧
    ¬ (∀ x, x ∈ applyDelete (applyInsert [] sampleA) sampleA.id ↔
        x ∈ applyInsert (applyDelete [] sampleA.id) sampleA) := by
  refine ⟨by decide, by decide, ?_⟩
  intro h
  have h1 := (h sampleA).2 (by decide)
  revert h1
  decide

/-- C4, amended: when the deleted id is not the inserted element's id, insert
then delete gives the same store as delete then insert. When it is, the order
matters: insert then delete gives the store with that id deleted, which does
not hold the element, while delete then insert gives a store that holds it. -/
theorem insert_delete_comm (s : List Element) (e : Element) (d : Id) :
    (d ≠ e.id → applyDelete (applyInsert s e) d = applyInsert (applyDelete s d) e) ∧
    (d = e.id →
      applyDelete (applyInsert s e) d = applyDelete s d ∧
      e ∉ applyDelete (applyInsert s e) d ∧
      e ∈ applyInsert (applyDelete s d) e) := by
  constructor
  · intro h
    have he : (e.id != d) = true := by
      simpa using fun h1 => h h1.symm
    simp [applyDelete, applyInsert, List.filter_append, he]
  · intro h
    subst h
    refine ⟨?_, ?_, ?_⟩
    · simp [applyDelete, applyInsert, List.filter_append]
    · simp [applyDelete, applyInsert, List.filter_append, List.mem_filter]
    · simp [applyInsert]

/-- C4, amended, at the store `[a]`: the element `b` with the id `a` deleted,
and the element `b` with its own id deleted. -/
theorem insert_delete_comm_witness :
    "a" ≠ sampleB.id ∧
    applyDelete (applyInsert [sampleA] sampleB) "a" =
      applyInsert (applyDelete [sampleA] "a") sampleB ∧
    "b" = sampleB.id ∧
    applyDelete (applyInsert [sampleA] sampleB) "b" = applyDelete [sampleA] "b" ∧
    sampleB ∈ applyInsert (applyDelete [sampleA] "b") sampleB :=
  ⟨by decide, (insert_delete_comm [sampleA] sampleB "a").1 (by decide), rfl,
    ((insert_delete_comm [sampleA] sampleB "b").2 rfl).1,
    ((insert_delete_comm [sampleA] sampleB "b").2 rfl).2.2⟩

/-! ## Drawing sessions -/

/-- Moves during a pen session extend the accumulated path and change nothing
else. -/
theorem run_moves_pen (ps : List Pos) (s : State) (htool : s.tool = .PEN)
    (hdraw : s.isDrawing = true) :
    run s (ps.map Event.mouseMove) =
      { s with currentPath := s.currentPath ++ flatPoints ps } := by
  induction ps generalizing s with
  | nil => simp [run, flatPoints]
  | cons p ps ih =>
    have hstep : step s (.mouseMove p) =
        { s with currentPath := s.currentPath ++ [p.x, p.y] } := by
      simp [step, handleMouseMove, htool, hdraw]
    have := ih (step s (.mouseMove p)) (by rw [hstep]; exact htool) (by rw [hstep]; exact hdraw)
    simp only [run, List.map_cons, List.foldl_cons] at this ⊢
    rw [this, hstep]
    simp [flatPoints]

/-- The `run` of a concatenation. -/
theorem run_append (s : State) (evs evs' : List Event) :
    run s (evs ++ evs') = run (run s evs) evs' := by
  simp [run, List.foldl_append]

/-- C5: a pen session, down at `p0`, moves at `ps`, then up, appends exactly
one element to the store and submits exactly one insert, both the stroke whose
flat point list is that of `p0 :: ps` in order; afterwards the accumulator is
empty, the machine is idle and nothing else has changed. For the positions
(0,0), (5,0), (5,5) from the initial state the stroke has points
0,0,5,0,5,5. -/
theorem pen_session (s : State) (p0 : Pos) (ps : List Pos) (uuidDown uuidUp : Id)
    (htool : s.tool = .PEN) :
    run s (session p0 ps uuidDown uuidUp) =
      { s with
        elements := s.elements ++ [strokeElement uuidUp (flatPoints (p0 :: ps))]
        saved := s.saved ++ [strokeElement uuidUp (flatPoints (p0 :: ps))]
        currentPath := []
        isDrawing := false } := by
  have hdown : step s (.mouseDown p0 uuidDown none) =
      { s with isDrawing := true, currentPath := [p0.x, p0.y] } := by
    simp [step, handleMouseDown, htool]
  unfold session
  rw [show run s (Event.mouseDown p0 uuidDown none ::
        (ps.map Event.mouseMove ++ [Event.mouseUp uuidUp])) =
      run (step s (.mouseDown p0 uuidDown none))
        (ps.map Event.mouseMove ++ [Event.mouseUp uuidUp]) from rfl]
  rw [run_append, hdown, run_moves_pen ps _ (by exact htool) (by rfl)]
  simp [run, step, handleMouseUp, htool, strokeElement, flatPoints]

/-- C5 at the positions (0,0), (5,0), (5,5) from the initial state. -/
theorem pen_session_witness :
    ({} : State).tool = .PEN ∧
    (run {} (session ⟨0, 0⟩ [⟨5, 0⟩, ⟨5, 5⟩] "d" "u")).elements =
      [strokeElement "u" [0, 0, 5, 0, 5, 5]] ∧
    (run {} (session ⟨0, 0⟩ [⟨5, 0⟩, ⟨5, 5⟩] "d" "u")).saved =
      [strokeElement "u" [0, 0, 5, 0, 5, 5]] :=
  ⟨rfl, by rw [pen_session {} ⟨0, 0⟩ [⟨5, 0⟩, ⟨5, 5⟩] "d" "u" rfl]; rfl,
    by rw [pen_session {} ⟨0, 0⟩ [⟨5, 0⟩, ⟨5, 5⟩] "d" "u" rfl]; rfl⟩

/-- On a list that ends with a shape built at `origin`, the move updater
rewrites that shape's size from the pointer position and keeps the rest. -/
theorem resizeLast_shape (l : List Element) (t : Tool) (uuid : Id) (origin point : Pos)
    (w h : Int) :
    resizeLast (l ++ [shapeElement t uuid origin w h]) point =
      l ++ [shapeElement t uuid origin (point.x - origin.x) (point.y - origin.y)] := by
  simp [resizeLast, shapeElement, jsSub]

/-- Moves during a rectangle or circle session, when the store ends with the
candidate throughout: the candidate's size follows the last position. -/
theorem run_moves_shape (ps : List Pos) (s : State) (l : List Element) (uuid : Id)
    (origin q : Pos) (htool : s.tool = .RECTANGLE ∨ s.tool = .CIRCLE)
    (hdraw : s.isDrawing = true)
    (hel : s.elements =
      l ++ [shapeElement s.tool uuid origin (q.x - origin.x) (q.y - origin.y)]) :
    run s (ps.map Event.mouseMove) =
      { s with elements :=
          l ++ [shapeElement s.tool uuid origin
            ((ps.getLastD q).x - origin.x) ((ps.getLastD q).y - origin.y)] } := by
  induction ps generalizing s q with
  | nil => simp [run, ← hel]
  | cons p ps ih =>
    have hstep : step s (.mouseMove p) =
        { s with elements :=
            l ++ [shapeElement s.tool uuid origin (p.x - origin.x) (p.y - origin.y)] } := by
      rcases htool with ht | ht <;>
        simp [step, handleMouseMove, ht, hdraw, hel, resizeLast_shape]
    have := ih (step s (.mouseMove p)) p (by rw [hstep]; exact htool)
      (by rw [hstep]; exact hdraw) (by rw [hstep])
    simp only [run, List.map_cons, List.foldl_cons] at this ⊢
    rw [this, hstep, List.getLastD_cons]

/-- When nothing but the pointer events of the session reaches the component,
a rectangle or ellipse session whose pointer is at the down position when it
goes up (no move at all, or a last move back at the down position) submits
nothing: the log of submitted elements after the session is the log before
it. -/
theorem degenerate_shape_not_saved (s : State) (p0 : Pos) (ps : List Pos)
    (uuidDown uuidUp : Id) (htool : s.tool = .RECTANGLE ∨ s.tool = .CIRCLE)
    (hend : ∀ p, ps.getLast? = some p → p = p0) :
    (run s (session p0 ps uuidDown uuidUp)).saved = s.saved ∧
    (run s (session p0 ps uuidDown uuidUp)).deleted = s.deleted := by
  have hdown : step s (.mouseDown p0 uuidDown none) =
      { s with
        isDrawing := true
        elements := s.elements ++
          [shapeElement s.tool uuidDown p0 (p0.x - p0.x) (p0.y - p0.y)] } := by
    rcases htool with ht | ht <;> simp [step, handleMouseDown, ht, shapeElement]
  have hlast : ps.getLastD p0 = p0 := by
    rw [List.getLastD_eq_getLast?]
    cases hp : ps.getLast? with
    | none => rfl
    | some p => exact hend p hp
  unfold session
  rw [show run s (Event.mouseDown p0 uuidDown none ::
        (ps.map Event.mouseMove ++ [Event.mouseUp uuidUp])) =
      run (step s (.mouseDown p0 uuidDown none))
        (ps.map Event.mouseMove ++ [Event.mouseUp uuidUp]) from rfl]
  rw [run_append, hdown,
    run_moves_shape ps _ s.elements uuidDown p0 p0 (by exact htool) (by rfl) (by rfl),
    hlast]
  rcases htool with ht | ht <;>
    simp [run, step, handleMouseUp, ht, shapeElement, strictNeZero]

/-- A rectangle dragged from (2,3) to (7,9) and back to (2,3), with no other
event in between, submits nothing. -/
theorem degenerate_shape_not_saved_witness :
    (run { tool := .RECTANGLE, elements := [sampleA] }
      (session ⟨2, 3⟩ [⟨7, 9⟩, ⟨2, 3⟩] "d" "u")).saved = [] :=
  (degenerate_shape_not_saved { tool := .RECTANGLE, elements := [sampleA] }
    ⟨2, 3⟩ [⟨7, 9⟩, ⟨2, 3⟩] "d" "u" (Or.inl rfl) (by decide)).1

/-- C6 fails on the code: `handleMouseUp` tests and submits whatever element is
last in the store. With the rectangle tool, after a down at (0,0) and the
arrival of the committed rectangle `b` (3 by 4), the up comes while the
candidate is still 0 by 0, at the down position, and yet submits an element:
`b`. The same happens with the circle tool, and when moves that end at the
down position come after the arrival: they resize `b` to -1 by -1, leave the
candidate 0 by 0, and the up submits the resized `b`. -/
theorem degenerate_up_submits_last :
    (let s := run { tool := .RECTANGLE }
        [.mouseDown ⟨0, 0⟩ "c" none, .inserted sampleB, .mouseUp "u"]
     s.elements = [shapeElement .RECTANGLE "c" ⟨0, 0⟩ 0 0, sampleB] ∧
     s.saved = [sampleB]) ∧
    (run { tool := .CIRCLE }
      [.mouseDown ⟨0, 0⟩ "c" none, .inserted sampleB, .mouseUp "u"]).saved = [sampleB] ∧
    (let s := run { tool := .RECTANGLE }
        [.mouseDown ⟨0, 0⟩ "c" none, .inserted sampleB, .mouseMove ⟨7, 9⟩,
          .mouseMove ⟨0, 0⟩, .mouseUp "u"]
     s.elements = [shapeElement .RECTANGLE "c" ⟨0, 0⟩ 0 0,
       { sampleB with data := { sampleB.data with
          width := some (.num (-1)), height := some (.num (-1)) } }] ∧
     s.saved = [{ sampleB with data := { sampleB.data with
          width := some (.num (-1)), height := some (.num (-1)) } }]) := by
  decide

/-! ## Presence -/

/-- C7: a presence sync replaces the whole membership: whatever the membership
was, afterwards it is the concatenation of the snapshot's record arrays, and
the rest of the state is untouched. After join U1, join U2, a sync whose
snapshot holds only U1 leaves the membership U1. -/
theorem presenceSync_replaces (s : State) (m m' : List Presence)
    (state : List (String × List Presence)) :
    presenceSync m state = (state.map Prod.snd).flatten ∧
    presenceSync m state = presenceSync m' state ∧
    step s (.presenceSync state) = { s with activeUsers := (state.map Prod.snd).flatten } ∧
    (run {} [.presenceJoin [sampleU1], .presenceJoin [sampleU2],
      .presenceSync [("k1", [sampleU1])]]).activeUsers = [sampleU1] :=
  ⟨rfl, rfl, rfl, by decide⟩

/-- C8, as stated, fails: from the empty membership, a join for a user already
listed, a join after the sync that already lists the user, or a snapshot with
two entries of one user (two tabs) each leave two records with one `user_id`,
and the list length, shown as the online count, is 2. -/
theorem presence_not_unique :
    (let m := (run {} [.presenceJoin [sampleU1], .presenceJoin [sampleU1]]).activeUsers
     m = [sampleU1, sampleU1] ∧ ¬ uniqueUsers m ∧ m.length = 2) ∧
    (let m := (run {} [.presenceSync [("k1", [sampleU1])],
        .presenceJoin [sampleU1]]).activeUsers
     ¬ uniqueUsers m ∧ m.length = 2) ∧
    (let m := (run {} [.presenceSync [("k1", [sampleU1]), ("k2", [sampleU1])]]).activeUsers
     ¬ uniqueUsers m ∧ m.length = 2) := by
  decide

/-- Only the three presence events change the membership. -/
theorem step_activeUsers (s : State) (ev : Event) :
    (step s ev).activeUsers =
      match ev with
      | .presenceSync state => presenceSync s.activeUsers state
      | .presenceJoin newPresences => presenceJoin s.activeUsers newPresences
      | .presenceLeave leftPresences => presenceLeave s.activeUsers leftPresences
      | _ => s.activeUsers := by
  cases ev with
  | mouseDown pos uuid promptText =>
    simp only [step, handleMouseDown]
    split
    · rfl
    · split
      · rfl
      · rfl
      · rfl
      · split
        · split <;> rfl
        · rfl
      · rfl
  | mouseMove point =>
    simp only [step, handleMouseMove]
    split
    · rfl
    · split <;> rfl
  | mouseUp uuid =>
    simp only [step, handleMouseUp]
    split
    · rfl
    · split
      · rfl
      · split
        · split
          · split <;> rfl
          · rfl
        · rfl
  | elementClick elementId =>
    simp only [step, handleElementClick]
    split <;> rfl
  | _ => rfl

/-- A leave keeps uniqueness: it only removes records. -/
theorem presenceLeave_unique (m leftPresences : List Presence) (h : uniqueUsers m) :
    uniqueUsers (presenceLeave m leftPresences) := by
  unfold uniqueUsers presenceLeave at *
  exact (List.filter_sublist m).map (fun p => p.user_id) |>.nodup h

/-- A join of fresh, distinct users keeps uniqueness. -/
theorem presenceJoin_unique (m newPresences : List Presence) (h : uniqueUsers m)
    (hnew : uniqueUsers newPresences)
    (hfresh : ∀ p ∈ newPresences, ∀ q ∈ m, p.user_id ≠ q.user_id) :
    uniqueUsers (presenceJoin m newPresences) := by
  unfold uniqueUsers presenceJoin at *
  rw [List.map_append, List.nodup_append]
  refine ⟨h, hnew, ?_⟩
  intro a ha hb
  rw [List.mem_map] at ha hb
  obtain ⟨q, hq, rfl⟩ := ha
  obtain ⟨p, hp, hpq⟩ := hb
  exact hfresh p hp q hq hpq

/-- C8, amended: the handlers do not deduplicate; uniqueness is kept by leave
events and by the events that bring no duplicate themselves. From a membership
with at most one record per `user_id`, in particular the empty one, every
sequence of events in which each snapshot lists each `user_id` once and each
join carries distinct `user_id`s not yet in the membership ends in a
membership with at most one record per `user_id`. -/
theorem presence_unique_of_fresh (evs : List Event) (s : State)
    (h : uniqueUsers s.activeUsers) (hfresh : freshRun s evs) :
    uniqueUsers (run s evs).activeUsers := by
  induction evs generalizing s with
  | nil => exact h
  | cons ev evs ih =>
    obtain ⟨hev, hrest⟩ := hfresh
    refine ih (step s ev) ?_ hrest
    rw [step_activeUsers]
    cases ev with
    | presenceSync state => exact hev
    | presenceJoin newPresences => exact presenceJoin_unique _ _ h hev.1 hev.2
    | presenceLeave leftPresences => exact presenceLeave_unique _ _ h
    | _ => exact h

/-- C8, amended, on: sync with U1, join U2, leave U1, join U1. -/
theorem presence_unique_of_fresh_witness :
    uniqueUsers ({} : State).activeUsers ∧
    freshRun {} [.presenceSync [("k1", [sampleU1])], .presenceJoin [sampleU2],
      .presenceLeave [sampleU1], .presenceJoin [sampleU1]] ∧
    uniqueUsers (run {} [.presenceSync [("k1", [sampleU1])], .presenceJoin [sampleU2],
      .presenceLeave [sampleU1], .presenceJoin [sampleU1]]).activeUsers :=
  ⟨by decide, by simp [freshRun, freshFor, uniqueUsers, step, presenceSync, presenceJoin,
      presenceLeave, sampleU1, sampleU2],
    presence_unique_of_fresh _ {} (by decide)
      (by simp [freshRun, freshFor, uniqueUsers, step, presenceSync, presenceJoin,
        presenceLeave, sampleU1, sampleU2])⟩

/-! ## Moves and committed elements -/

/-- C9 fails on the code: `handleMouseMove` rewrites the size of whatever
element is last in the store. With the rectangle tool, after a down at (0,0)
and the arrival of the committed rectangle `b` (origin (1,1), 3 by 4), a move
to (5,5) leaves the candidate 0 by 0 and turns `b` into a 4 by 4 rectangle,
which the following up then submits. Likewise a move after a pen down and a
switch to the rectangle tool resizes the last committed element. -/
theorem move_mutates_committed :
    (let s1 := run { tool := .RECTANGLE } [.mouseDown ⟨0, 0⟩ "c" none, .inserted sampleB]
     let s2 := step s1 (.mouseMove ⟨5, 5⟩)
     s1.elements = [shapeElement .RECTANGLE "c" ⟨0, 0⟩ 0 0, sampleB] ∧
     s2.elements = [shapeElement .RECTANGLE "c" ⟨0, 0⟩ 0 0,
       { sampleB with data := { sampleB.data with
          width := some (.num 4), height := some (.num 4) } }] ∧
     sampleB ∉ s2.elements ∧
     (step s2 (.mouseUp "u")).saved =
       [{ sampleB with data := { sampleB.data with
          width := some (.num 4), height := some (.num 4) } }]) ∧
    (run { tool := .PEN, elements := [sampleB] }
      [.mouseDown ⟨0, 0⟩ "c" none, .setTool .RECTANGLE, .mouseMove ⟨5, 5⟩]).elements =
       [{ sampleB with data := { sampleB.data with
          width := some (.num 4), height := some (.num 4) } }] := by
  decide

/-! ## Nothing is submitted before the pointer goes up -/

/-- C10: with the pen, rectangle or circle tool selected, `handleMouseDown` and
`handleMouseMove` leave the log of submitted inserts (and that of submitted
deletes) as it was, in every state; of all events, only a pointer up can add
to the log of submitted inserts. -/
theorem only_mouseUp_saves (s : State) (ev : Event)
    (htool : s.tool = .PEN ∨ s.tool = .RECTANGLE ∨ s.tool = .CIRCLE) :
    (∀ pos uuid promptText,
      (handleMouseDown s pos uuid promptText).saved = s.saved ∧
      (handleMouseDown s pos uuid promptText).deleted = s.deleted) ∧
    (∀ point,
      (handleMouseMove s point).saved = s.saved ∧
      (handleMouseMove s point).deleted = s.deleted) ∧
    ((step s ev).saved ≠ s.saved → ∃ uuid, ev = .mouseUp uuid) := by
  have hdown : ∀ pos uuid promptText,
      (handleMouseDown s pos uuid promptText).saved = s.saved ∧
      (handleMouseDown s pos uuid promptText).deleted = s.deleted := by
    intro pos uuid promptText
    rcases htool with ht | ht | ht <;> simp [handleMouseDown, ht]
  have hmove : ∀ point,
      (handleMouseMove s point).saved = s.saved ∧
      (handleMouseMove s point).deleted = s.deleted := by
    intro point
    unfold handleMouseMove
    split
    · exact ⟨rfl, rfl⟩
    · split <;> exact ⟨rfl, rfl⟩
  refine ⟨hdown, hmove, ?_⟩
  intro hne
  cases ev with
  | mouseUp uuid => exact ⟨uuid, rfl⟩
  | mouseDown pos uuid promptText => exact absurd (hdown pos uuid promptText).1 hne
  | mouseMove point => exact absurd (hmove point).1 hne
  | elementClick elementId =>
    exfalso
    apply hne
    simp only [step, handleElementClick]
    split <;> rfl
  | _ => exact absurd rfl hne

/-- C10 at a rectangle session in progress: the down and the move submit
nothing, the up at a non-zero size submits the candidate, and the event that
changed the log is a pointer up. -/
theorem only_mouseUp_saves_witness :
    (handleMouseDown { tool := .RECTANGLE } ⟨0, 0⟩ "c" none).saved = [] ∧
    (handleMouseMove (handleMouseDown { tool := .RECTANGLE } ⟨0, 0⟩ "c" none) ⟨5, 5⟩).saved
      = [] ∧
    (run { tool := .RECTANGLE } (session ⟨0, 0⟩ [⟨5, 5⟩] "c" "u")).saved =
      [shapeElement .RECTANGLE "c" ⟨0, 0⟩ 5 5] ∧
    ∃ uuid, Event.mouseUp "u" = Event.mouseUp uuid :=
  ⟨((only_mouseUp_saves { tool := .RECTANGLE } (.mouseMove ⟨5, 5⟩)
      (Or.inr (Or.inl rfl))).1 ⟨0, 0⟩ "c" none).1,
    ((only_mouseUp_saves (handleMouseDown { tool := .RECTANGLE } ⟨0, 0⟩ "c" none)
      (.mouseMove ⟨5, 5⟩) (Or.inr (Or.inl rfl))).2.1 ⟨5, 5⟩).1,
    by decide,
    (only_mouseUp_saves
      (run { tool := .RECTANGLE } [.mouseDown ⟨0, 0⟩ "c" none, .mouseMove ⟨5, 5⟩])
      (.mouseUp "u") (Or.inr (Or.inl rfl))).2.2 (by decide)⟩

/-! ## Rectangle and circle sessions -/

/-- A session is its down and moves followed by the up. -/
theorem session_eq (p0 : Pos) (ps : List Pos) (uuidDown uuidUp : Id) :
    session p0 ps uuidDown uuidUp =
      (Event.mouseDown p0 uuidDown none :: ps.map Event.mouseMove) ++
        [Event.mouseUp uuidUp] :=
  rfl

/-- The state after the down and the moves of a rectangle or circle session:
drawing, with the candidate appended and sized by the last position. -/
theorem run_down_moves_shape (s : State) (p0 : Pos) (ps : List Pos) (uuidDown : Id)
    (htool : s.tool = .RECTANGLE ∨ s.tool = .CIRCLE) :
    run s (Event.mouseDown p0 uuidDown none :: ps.map Event.mouseMove) =
      { s with
        isDrawing := true
        elements := s.elements ++
          [shapeElement s.tool uuidDown p0
            ((ps.getLastD p0).x - p0.x) ((ps.getLastD p0).y - p0.y)] } := by
  have hdown : step s (.mouseDown p0 uuidDown none) =
      { s with
        isDrawing := true
        elements := s.elements ++
          [shapeElement s.tool uuidDown p0 (p0.x - p0.x) (p0.y - p0.y)] } := by
    rcases htool with ht | ht <;> simp [step, handleMouseDown, ht, shapeElement]
  rw [show run s (Event.mouseDown p0 uuidDown none :: ps.map Event.mouseMove) =
      run (step s (.mouseDown p0 uuidDown none)) (ps.map Event.mouseMove) from rfl]
  rw [hdown,
    run_moves_shape ps _ s.elements uuidDown p0 p0 (by exact htool) (by rfl) (by rfl)]

/-- The pointer up of a rectangle or circle session when the store ends with
the candidate: the candidate is submitted when its width or height is not
zero, and nothing is submitted otherwise; the store is not touched. -/
theorem handleMouseUp_shape (s : State) (l : List Element) (uuid uuidUp : Id)
    (origin : Pos) (w h : Int) (htool : s.tool = .RECTANGLE ∨ s.tool = .CIRCLE)
    (hdraw : s.isDrawing = true)
    (hel : s.elements = l ++ [shapeElement s.tool uuid origin w h]) :
    handleMouseUp s uuidUp =
      if w ≠ 0 ∨ h ≠ 0 then
        { s with
          isDrawing := false
          saved := s.saved ++ [shapeElement s.tool uuid origin w h] }
      else { s with isDrawing := false } := by
  rcases htool with ht | ht <;>
    simp [handleMouseUp, ht, hdraw, hel, shapeElement, strictNeZero]

/-- C11: in a rectangle or ellipse session made of a down at `o`, one or more
moves the last of which is at `p`, and nothing else, the store after the moves
is the store before followed by the candidate with origin `o`, the id drawn at
the down, width `p.x - o.x` and height `p.y - o.y`, of either sign; and when
that width or height is not zero the up submits exactly that candidate, once,
and leaves the store as it is. -/
theorem shape_session (s : State) (o p : Pos) (ps : List Pos) (uuidDown uuidUp : Id)
    (htool : s.tool = .RECTANGLE ∨ s.tool = .CIRCLE) (hlast : ps.getLast? = some p) :
    (run s (Event.mouseDown o uuidDown none :: ps.map Event.mouseMove)).elements =
      s.elements ++ [shapeElement s.tool uuidDown o (p.x - o.x) (p.y - o.y)] ∧
    (p.x - o.x ≠ 0 ∨ p.y - o.y ≠ 0 →
      run s (session o ps uuidDown uuidUp) =
        { s with
          isDrawing := false
          elements := s.elements ++ [shapeElement s.tool uuidDown o (p.x - o.x) (p.y - o.y)]
          saved := s.saved ++ [shapeElement s.tool uuidDown o (p.x - o.x) (p.y - o.y)] }) := by
  have hp : ps.getLastD o = p := by
    rw [List.getLastD_eq_getLast?, hlast]
    rfl
  have hmoves := run_down_moves_shape s o ps uuidDown htool
  rw [hp] at hmoves
  refine ⟨by rw [hmoves], ?_⟩
  intro hsize
  rw [session_eq, run_append, hmoves]
  have hup := handleMouseUp_shape
    { s with
      isDrawing := true
      elements := s.elements ++ [shapeElement s.tool uuidDown o (p.x - o.x) (p.y - o.y)] }
    s.elements uuidDown uuidUp o (p.x - o.x) (p.y - o.y) htool rfl rfl
  rw [if_pos hsize] at hup
  simpa [run, step] using hup

/-- C11 for a circle dragged up and to the right from (5,5) over (9,9) to
(2,9): the width is negative. -/
theorem shape_session_witness :
    (run { tool := .CIRCLE, elements := [sampleA] }
      [.mouseDown ⟨5, 5⟩ "c" none, .mouseMove ⟨9, 9⟩, .mouseMove ⟨2, 9⟩]).elements =
      [sampleA, shapeElement .CIRCLE "c" ⟨5, 5⟩ (-3) 4] ∧
    (run { tool := .CIRCLE, elements := [sampleA] }
      (session ⟨5, 5⟩ [⟨9, 9⟩, ⟨2, 9⟩] "c" "u")).saved =
      [shapeElement .CIRCLE "c" ⟨5, 5⟩ (-3) 4] :=
  ⟨(shape_session { tool := .CIRCLE, elements := [sampleA] } ⟨5, 5⟩ ⟨2, 9⟩
      [⟨9, 9⟩, ⟨2, 9⟩] "c" "u" (Or.inr rfl) rfl).1,
    by rw [(shape_session { tool := .CIRCLE, elements := [sampleA] } ⟨5, 5⟩ ⟨2, 9⟩
      [⟨9, 9⟩, ⟨2, 9⟩] "c" "u" (Or.inr rfl) rfl).2 (by decide)]; rfl⟩

/-! ## Initial load -/

/-- C12, as stated, fails: when the fetch fails on a store that holds `a`, by
an error in the result or by a rejected promise, `loadElements` returns with
the store still holding `a`, not with an empty store. -/
theorem loadElements_failure_keeps_store :
    loadElements { elements := [sampleA] } (.resolved none (some "unreachable")) =
      .ok { elements := [sampleA] } ∧
    loadElements { elements := [sampleA] } (.rejected "network") =
      .ok { elements := [sampleA] } ∧
    ¬ (∀ s' : State,
        loadElements { elements := [sampleA] } (.resolved none (some "unreachable")) = .ok s' →
        s'.elements = []) := by
  refine ⟨rfl, rfl, ?_⟩
  intro h
  have h1 := h { elements := [sampleA] } rfl
  revert h1
  decide

/-- C12, amended: `loadElements` never throws. When the fetch fails, by an
error in the result or by a rejected promise, it returns with the state as it
was, so the store is empty exactly when it was empty before; when the fetch
succeeds the store becomes the fetched list, the empty list when the data is
null, whatever it held, and nothing else changes. -/
theorem loadElements_total (s : State) (r : FetchResult) :
    (∃ s', loadElements s r = .ok s') ∧
    (∀ reason, loadElements s (.rejected reason) = .ok s) ∧
    (∀ data error, loadElements s (.resolved data (some error)) = .ok s) ∧
    (∀ data, loadElements s (.resolved (some data) none) = .ok { s with elements := data }) ∧
    loadElements s (.resolved none none) = .ok { s with elements := [] } := by
  refine ⟨?_, fun _ => rfl, fun _ _ => rfl, fun _ => rfl, rfl⟩
  cases r with
  | rejected reason => exact ⟨s, rfl⟩
  | resolved data error =>
    cases error with
    | none => exact ⟨{ s with elements := data.getD [] }, rfl⟩
    | some err => exact ⟨s, rfl⟩

/-! ## Presence leave -/

/-- C13: a leave removes exactly the records whose `user_id` is that of some
left descriptor. The membership afterwards is the membership before filtered
by "no left descriptor has this `user_id`": no record left in it carries a
left `user_id`, every record with another `user_id` is still there, and the
records kept are unchanged and in their former order. -/
theorem presenceLeave_exact (m leftPresences : List Presence) :
    presenceLeave m leftPresences =
      m.filter (fun u => decide (u.user_id ∉ leftPresences.map (fun l => l.user_id))) ∧
    (∀ u ∈ presenceLeave m leftPresences, ∀ l ∈ leftPresences, u.user_id ≠ l.user_id) ∧
    (∀ u ∈ m, (∀ l ∈ leftPresences, u.user_id ≠ l.user_id) →
      u ∈ presenceLeave m leftPresences) ∧
    (presenceLeave m leftPresences).Sublist m := by
  have hpred : ∀ u : Presence,
      (!(leftPresences.find? (fun left => left.user_id == u.user_id)).isSome) = true ↔
        ∀ l ∈ leftPresences, u.user_id ≠ l.user_id := by
    intro u
    simp only [Bool.not_eq_true', ← Bool.not_eq_true, List.find?_isSome, beq_iff_eq]
    constructor
    · intro h l hl hul
      exact h ⟨l, hl, hul.symm⟩
    · rintro h ⟨l, hl, hlu⟩
      exact h l hl hlu.symm
  refine ⟨?_, ?_, ?_, ?_⟩
  · unfold presenceLeave
    apply List.filter_congr
    intro u _
    rw [Bool.eq_iff_iff, hpred u]
    simp only [decide_eq_true_eq, List.mem_map, not_exists, not_and]
    constructor
    · intro h l hl hlu
      exact h l hl hlu.symm
    · intro h l hl hul
      exact h l hl hul.symm
  · intro u hu
    unfold presenceLeave at hu
    rw [List.mem_filter] at hu
    exact (hpred u).1 hu.2
  · intro u hu hne
    unfold presenceLeave
    rw [List.mem_filter]
    exact ⟨hu, (hpred u).2 hne⟩
  · exact List.filter_sublist m

/-- C13 on the membership U1, U2, U1 with U1 leaving: U2 stays. -/
theorem presenceLeave_exact_witness :
    presenceLeave [sampleU1, sampleU2, sampleU1] [sampleU1] = [sampleU2] ∧
    sampleU2 ∈ presenceLeave [sampleU1, sampleU2, sampleU1] [sampleU1] :=
  ⟨by decide,
    (presenceLeave_exact [sampleU1, sampleU2, sampleU1] [sampleU1]).2.2.1 sampleU2
      (by decide) (by decide)⟩

/-! ## The degenerate candidate stays in the store -/

/-- C14: after a rectangle or ellipse session that ends with the pointer at
the down position (no move, or a last move back there), the 0 by 0 candidate
appended at the down is still the last element of the store and nothing was
submitted; when the id drawn at the down is not among the submitted ones, the
store thus holds an element that was never submitted. No pointer up removes an
element: the store before it is a prefix of the store after it. -/
theorem degenerate_shape_stays (s : State) (p0 : Pos) (ps : List Pos)
    (uuidDown uuidUp : Id) (htool : s.tool = .RECTANGLE ∨ s.tool = .CIRCLE)
    (hend : ∀ p, ps.getLast? = some p → p = p0)
    (hfresh : ∀ e ∈ s.saved, e.id ≠ uuidDown) :
    run s (session p0 ps uuidDown uuidUp) =
      { s with
        isDrawing := false
        elements := s.elements ++ [shapeElement s.tool uuidDown p0 0 0] } ∧
    shapeElement s.tool uuidDown p0 0 0 ∈ (run s (session p0 ps uuidDown uuidUp)).elements ∧
    shapeElement s.tool uuidDown p0 0 0 ∉ (run s (session p0 ps uuidDown uuidUp)).saved ∧
    ∀ (t : State) (uuid : Id), t.elements <+: (handleMouseUp t uuid).elements := by
  have hlast : ps.getLastD p0 = p0 := by
    rw [List.getLastD_eq_getLast?]
    cases hp : ps.getLast? with
    | none => rfl
    | some p => exact hend p hp
  have hmoves := run_down_moves_shape s p0 ps uuidDown htool
  rw [hlast, sub_self, sub_self] at hmoves
  have hup := handleMouseUp_shape
    { s with
      isDrawing := true
      elements := s.elements ++ [shapeElement s.tool uuidDown p0 0 0] }
    s.elements uuidDown uuidUp p0 0 0 htool rfl rfl
  rw [if_neg (by simp)] at hup
  have hrun : run s (session p0 ps uuidDown uuidUp) =
      { s with
        isDrawing := false
        elements := s.elements ++ [shapeElement s.tool uuidDown p0 0 0] } := by
    rw [session_eq, run_append, hmoves]
    simpa [run, step] using hup
  refine ⟨hrun, ?_, ?_, ?_⟩
  · rw [hrun]
    simp
  · rw [hrun]
    intro hmem
    exact hfresh _ hmem rfl
  · intro t uuid
    unfold handleMouseUp
    split
    · exact List.prefix_refl _
    · split
      · exact List.prefix_append _ _
      · split
        · split
          · split
            · exact List.prefix_refl _
            · exact List.prefix_refl _
          · exact List.prefix_refl _
        · exact List.prefix_refl _

/-- C14 for a rectangle session that is a down at (2,3) directly followed by
the up, on a store holding `a`. -/
theorem degenerate_shape_stays_witness :
    (run { tool := .RECTANGLE, elements := [sampleA] }
      (session ⟨2, 3⟩ [] "d" "u")).elements =
      [sampleA, shapeElement .RECTANGLE "d" ⟨2, 3⟩ 0 0] ∧
    (run { tool := .RECTANGLE, elements := [sampleA] }
      (session ⟨2, 3⟩ [] "d" "u")).saved = [] :=
  ⟨by rw [(degenerate_shape_stays { tool := .RECTANGLE, elements := [sampleA] }
      ⟨2, 3⟩ [] "d" "u" (Or.inl rfl) (by decide) (by decide)).1]; rfl,
    by rw [(degenerate_shape_stays { tool := .RECTANGLE, elements := [sampleA] }
      ⟨2, 3⟩ [] "d" "u" (Or.inl rfl) (by decide) (by decide)).1]⟩

end Whiteboard
